import Mathlib

/-!
Verification of the pdf-sanitization frontend's annotation core.

The repository holds three prototype React components of the same feature
(`src/frontend/src/PDFSanitizerApp0.jsx`, `PDFSanitizerApp.jsx`,
`PDFSanitizerApp1.jsx`).  This file shallowly embeds the pure parts that the
claims are about: the coordinate transform functions, the per-page rectangle
store and its mutation handlers, the payload builders of the two submitting
variants, the erase-term CSV parsing, and an event-level model of the
cancellable page-render pipeline.  JS numbers are embedded as rationals ℚ, JS
`File` objects as opaque numeric identifiers, and JS objects used as maps as
functions into `Option`.
-/

namespace PdfSan

/-- Pixel-space rectangle `{x1, y1, x2, y2}` as drawn (any drag direction),
as handled by `normalizeRect` in `PDFSanitizerApp1.jsx`. -/
structure PxRect where
  x1 : ℚ
  y1 : ℚ
  x2 : ℚ
  y2 : ℚ
deriving DecidableEq

/-- Normalized rectangle `{x1n, y1n, x2n, y2n}` in unit space, as stored per
page by `PDFSanitizerApp1.jsx`. -/
structure NormRect where
  x1n : ℚ
  y1n : ℚ
  x2n : ℚ
  y2n : ℚ
deriving DecidableEq

/-- Embedding of `normalizeRect(pxRect, w, h)` (PDFSanitizerApp1.jsx lines
72-82): clamp each coordinate to the surface, order min/max, divide by the
surface dimensions. -/
def normalizeRect (pxRect : PxRect) (w h : ℚ) : NormRect :=
  let x1 := max 0 (min pxRect.x1 w)
  let x2 := max 0 (min pxRect.x2 w)
  let y1 := max 0 (min pxRect.y1 h)
  let y2 := max 0 (min pxRect.y2 h)
  let left := min x1 x2
  let right := max x1 x2
  let top := min y1 y2
  let bottom := max y1 y2
  { x1n := left / w, y1n := top / h, x2n := right / w, y2n := bottom / h }

/-- Embedding of `denormalizeRect(nr, w, h)` (PDFSanitizerApp1.jsx lines
85-89): scale a normalized rectangle back up to pixels. -/
def denormalizeRect (nr : NormRect) (w h : ℚ) : PxRect :=
  { x1 := nr.x1n * w, y1 := nr.y1n * h, x2 := nr.x2n * w, y2 := nr.y2n * h }

/-- Embedding of `normRectToPdfPoints(nr, pageWpts, pageHpts)`
(PDFSanitizerApp1.jsx lines 92-99): multiply normalized coordinates by the
page's native point dimensions (viewport at scale 1). -/
def normRectToPdfPoints (nr : NormRect) (pageWpts pageHpts : ℚ) : PxRect :=
  { x1 := nr.x1n * pageWpts, y1 := nr.y1n * pageHpts,
    x2 := nr.x2n * pageWpts, y2 := nr.y2n * pageHpts }

/-- JS `Math.round`: round half towards positive infinity. -/
def jsRound (q : ℚ) : ℤ := ⌊q + 1 / 2⌋

/-- Embedding of `fmt(n) = Math.round(n * 100) / 100` (PDFSanitizerApp1.jsx
line 21). -/
def fmt (n : ℚ) : ℚ := ((jsRound (n * 100) : ℤ) : ℚ) / 100

/-- Bounds of one clamped-and-divided coordinate pair of `normalizeRect`. -/
theorem clampDiv_bounds (a b w : ℚ) (hw : 0 < w) :
    0 ≤ min (max 0 (min a w)) (max 0 (min b w)) / w ∧
      min (max 0 (min a w)) (max 0 (min b w)) / w ≤
        max (max 0 (min a w)) (max 0 (min b w)) / w ∧
      max (max 0 (min a w)) (max 0 (min b w)) / w ≤ 1 := by
  have hp0 : (0 : ℚ) ≤ max 0 (min a w) := le_max_left 0 _
  have hq0 : (0 : ℚ) ≤ max 0 (min b w) := le_max_left 0 _
  have hpw : max 0 (min a w) ≤ w := max_le hw.le (min_le_right _ _)
  have hqw : max 0 (min b w) ≤ w := max_le hw.le (min_le_right _ _)
  refine ⟨div_nonneg (le_min hp0 hq0) hw.le, ?_, ?_⟩
  · exact div_le_div_of_nonneg_right min_le_max hw.le
  · rw [div_le_one hw]
    exact max_le hpw hqw

/-- C2: for every pixel rectangle (any drag direction, coordinates possibly
outside the surface) and positive surface dimensions, `normalizeRect` clamps,
orders and divides, so the result satisfies 0 ≤ x1n ≤ x2n ≤ 1 and
0 ≤ y1n ≤ y2n ≤ 1. -/
theorem claim_C2_normalizeRect_bounds (r : PxRect) (w h : ℚ)
    (hw : 0 < w) (hh : 0 < h) :
    0 ≤ (normalizeRect r w h).x1n ∧
      (normalizeRect r w h).x1n ≤ (normalizeRect r w h).x2n ∧
      (normalizeRect r w h).x2n ≤ 1 ∧
      0 ≤ (normalizeRect r w h).y1n ∧
      (normalizeRect r w h).y1n ≤ (normalizeRect r w h).y2n ∧
      (normalizeRect r w h).y2n ≤ 1 := by
  have hx := clampDiv_bounds r.x1 r.x2 w hw
  have hy := clampDiv_bounds r.y1 r.y2 h hh
  exact ⟨hx.1, hx.2.1, hx.2.2, hy.1, hy.2.1, hy.2.2⟩

/-- Witness for C2 at the surface 10 × 20 and a rectangle dragged
right-to-left with coordinates spilling outside the surface. -/
theorem claim_C2_witness :
    (0 : ℚ) < 10 ∧ (0 : ℚ) < 20 ∧
      (0 ≤ (normalizeRect ⟨-3, 50, 999, -2⟩ 10 20).x1n ∧
        (normalizeRect ⟨-3, 50, 999, -2⟩ 10 20).x1n ≤
          (normalizeRect ⟨-3, 50, 999, -2⟩ 10 20).x2n ∧
        (normalizeRect ⟨-3, 50, 999, -2⟩ 10 20).x2n ≤ 1 ∧
        0 ≤ (normalizeRect ⟨-3, 50, 999, -2⟩ 10 20).y1n ∧
        (normalizeRect ⟨-3, 50, 999, -2⟩ 10 20).y1n ≤
          (normalizeRect ⟨-3, 50, 999, -2⟩ 10 20).y2n ∧
        (normalizeRect ⟨-3, 50, 999, -2⟩ 10 20).y2n ≤ 1) :=
  ⟨by norm_num, by norm_num,
    claim_C2_normalizeRect_bounds ⟨-3, 50, 999, -2⟩ 10 20 (by norm_num) (by norm_num)⟩

/-- C3: for every pixel rectangle with positive width and height whose
coordinates lie within the surface, `denormalizeRect` after `normalizeRect`
reproduces the rectangle up to canonical min/max ordering.  Over the rational
embedding the round trip is exact (the floating-point tolerance of the spec
is needed only for binary floats). -/
theorem claim_C3_roundtrip (r : PxRect) (w h : ℚ) (hw : 0 < w) (hh : 0 < h)
    (hx1l : 0 ≤ r.x1) (hx1r : r.x1 ≤ w) (hx2l : 0 ≤ r.x2) (hx2r : r.x2 ≤ w)
    (hy1l : 0 ≤ r.y1) (hy1r : r.y1 ≤ h) (hy2l : 0 ≤ r.y2) (hy2r : r.y2 ≤ h)
    (_hwid : r.x1 ≠ r.x2) (_hhei : r.y1 ≠ r.y2) :
    denormalizeRect (normalizeRect r w h) w h =
      { x1 := min r.x1 r.x2, y1 := min r.y1 r.y2,
        x2 := max r.x1 r.x2, y2 := max r.y1 r.y2 } := by
  have cx1 : max 0 (min r.x1 w) = r.x1 := by rw [min_eq_left hx1r, max_eq_right hx1l]
  have cx2 : max 0 (min r.x2 w) = r.x2 := by rw [min_eq_left hx2r, max_eq_right hx2l]
  have cy1 : max 0 (min r.y1 h) = r.y1 := by rw [min_eq_left hy1r, max_eq_right hy1l]
  have cy2 : max 0 (min r.y2 h) = r.y2 := by rw [min_eq_left hy2r, max_eq_right hy2l]
  simp only [denormalizeRect, normalizeRect, cx1, cx2, cy1, cy2]
  refine PxRect.mk.injEq _ _ _ _ _ _ _ _ ▸ ?_
  exact ⟨div_mul_cancel₀ _ hw.ne', div_mul_cancel₀ _ hh.ne',
    div_mul_cancel₀ _ hw.ne', div_mul_cancel₀ _ hh.ne'⟩

/-- Witness for C3 at the 800 × 600 surface of the spec's scenario, for the
rectangle dragged from (110, 60) back to (10, 10). -/
theorem claim_C3_witness :
    (0 : ℚ) < 800 ∧ (0 : ℚ) < 600 ∧
      denormalizeRect (normalizeRect ⟨110, 60, 10, 10⟩ 800 600) 800 600 =
        { x1 := min (110 : ℚ) 10, y1 := min (60 : ℚ) 10,
          x2 := max (110 : ℚ) 10, y2 := max (60 : ℚ) 10 } :=
  ⟨by norm_num, by norm_num,
    claim_C3_roundtrip ⟨110, 60, 10, 10⟩ 800 600 (by norm_num) (by norm_num)
      (by norm_num) (by norm_num) (by norm_num) (by norm_num)
      (by norm_num) (by norm_num) (by norm_num) (by norm_num)
      (by norm_num) (by norm_num)⟩

/-- Rectangle kind: `redact` | `logo`. -/
inductive RectKind where
  | redact
  | logo
deriving DecidableEq

/-- One stored rectangle of `PDFSanitizerApp1.jsx` (line 153): the per-page
store holds `{ nr, kind, logoFile }`.  The uploaded `File` object is opaque
to the core and embedded as a numeric identifier. -/
structure StoredRect where
  nr : NormRect
  kind : RectKind
  logoFile : Option Nat
deriving DecidableEq

/-- The `pageRects` store of `PDFSanitizerApp1.jsx`: a JS object mapping page
number to the list of rectangles committed on that page, embedded as a total
function that is `[]` where the object has no key. -/
def PageStore : Type := Nat → List StoredRect

/-- Embedding of `handlePointerUp` (PDFSanitizerApp1.jsx lines 303-325), the
commit path of the drawing interaction: when a drag is in progress and the
overlay has nonzero dimensions, normalize the dragged rectangle and append it
to the active page's list unless its normalized width or height is zero. -/
def handlePointerUp (isDrawing : Bool) (startPos currentPos : ℚ × ℚ)
    (w h : ℚ) (pageNumber : Nat) (pageRects : PageStore) : PageStore :=
  if isDrawing = false then pageRects
  else if w = 0 ∨ h = 0 then pageRects
  else
    let nr := normalizeRect ⟨startPos.1, startPos.2, currentPos.1, currentPos.2⟩ w h
    if nr.x1n ≠ nr.x2n ∧ nr.y1n ≠ nr.y2n then
      fun p => if p = pageNumber
        then pageRects pageNumber ++ [⟨nr, RectKind.redact, none⟩]
        else pageRects p
    else pageRects

/-- In-place update of a list entry, as JS `arr[idx] = f(arr[idx])` guarded by
`if (arr[idx])`: indices past the end leave the list unchanged. -/
def modifyAt (f : StoredRect → StoredRect) : Nat → List StoredRect → List StoredRect
  | _, [] => []
  | 0, a :: as => f a :: as
  | n + 1, a :: as => a :: modifyAt f n as

/-- Reading back the modified index. -/
theorem modifyAt_get? (f : StoredRect → StoredRect) :
    ∀ (n : Nat) (l : List StoredRect),
      (modifyAt f n l).get? n = (l.get? n).map f := by
  intro n
  induction n with
  | zero => intro l; cases l <;> rfl
  | succ n ih => intro l; cases l with
    | nil => rfl
    | cons a as => simpa [modifyAt] using ih as

/-- Embedding of `updateRectKind(idx, kind)` (PDFSanitizerApp1.jsx lines
337-348): set the rectangle's kind and keep `logoFile` only when the new kind
is `logo`. -/
def updateRectKind (pageNumber idx : Nat) (kind : RectKind)
    (pageRects : PageStore) : PageStore :=
  fun p => if p = pageNumber then
    modifyAt (fun r =>
        { r with kind := kind,
                 logoFile := if kind = RectKind.logo then r.logoFile else none })
      idx (pageRects pageNumber)
  else pageRects p

/-- Embedding of `setRectLogoFile(idx, file)` (PDFSanitizerApp1.jsx lines
350-358). -/
def setRectLogoFile (pageNumber idx : Nat) (file : Option Nat)
    (pageRects : PageStore) : PageStore :=
  fun p => if p = pageNumber
    then modifyAt (fun r => { r with logoFile := file }) idx (pageRects pageNumber)
    else pageRects p

/-- Embedding of `clearPageRects()` (PDFSanitizerApp1.jsx lines 360-362):
replace the active page's entry by the empty list, leaving every other key of
the object untouched. -/
def clearPageRects (pageNumber : Nat) (pageRects : PageStore) : PageStore :=
  fun p => if p = pageNumber then [] else pageRects p

/-- C5: a commit attempt whose pixel rectangle has zero width or zero height
never enters the store: `handlePointerUp` leaves the whole store unchanged,
so in particular the rectangle count of every page is unchanged.  (Zero pixel
width forces zero normalized width after clamping, and the commit guard
`nr.x1n !== nr.x2n && nr.y1n !== nr.y2n` then rejects the rectangle.) -/
theorem claim_C5_zero_area_noop (isDrawing : Bool) (startPos currentPos : ℚ × ℚ)
    (w h : ℚ) (pageNumber : Nat) (pageRects : PageStore)
    (hzero : startPos.1 = currentPos.1 ∨ startPos.2 = currentPos.2) :
    handlePointerUp isDrawing startPos currentPos w h pageNumber pageRects =
      pageRects := by
  unfold handlePointerUp
  split
  · rfl
  · split
    · rfl
    · rw [if_neg]
      rintro ⟨hx, hy⟩
      rcases hzero with hz | hz
      · exact hx (by simp [normalizeRect, hz])
      · exact hy (by simp [normalizeRect, hz])

/-- Witness for C5: a vertical-line drag (zero pixel width) on a 100 × 100
surface commits nothing. -/
theorem claim_C5_witness :
    handlePointerUp true (5, 5) (5, 80) 100 100 1 (fun _ => []) = (fun _ => []) :=
  claim_C5_zero_area_noop true (5, 5) (5, 80) 100 100 1 (fun _ => []) (Or.inl rfl)

/-- The session-level state around the App1 store that the C9 scenario needs:
the active document index and page number are component state
(`activeFileIdx`, `pageNumber`), and the rectangle store is keyed by page
number only — it carries no document index. -/
structure Session where
  activeFileIdx : Nat
  pageNumber : Nat
  pageRects : PageStore

/-- The active-file selector (`onChange` of the file `<select>`,
PDFSanitizerApp1.jsx line 519) only changes `activeFileIdx`; the rectangle
store is not touched. -/
def setActiveFile (i : Nat) (s : Session) : Session :=
  { s with activeFileIdx := i }

/-- A pointer-up commit performed in the current session context. -/
def sessionPointerUp (startPos currentPos : ℚ × ℚ) (w h : ℚ) (s : Session) :
    Session :=
  { s with pageRects :=
      handlePointerUp true startPos currentPos w h s.pageNumber s.pageRects }

/-- The Clear button (`clearPageRects`, PDFSanitizerApp1.jsx lines 360-362)
performed in the current session context. -/
def sessionClear (s : Session) : Session :=
  { s with pageRects := clearPageRects s.pageNumber s.pageRects }

/-- C9 counterexample: the App1 store is keyed by page number only, not by
(document, page).  A rectangle committed on page 1 while document 0 is active
is removed by clearing page 1 while document 1 is active, so the rectangle
set of the other document's page 1 is not preserved, contradicting the claim
that clearPage leaves every other (document, page) pair — including the same
page number in other documents — unchanged. -/
theorem claim_C9_counterexample :
    ((sessionPointerUp (0, 0) (10, 10) 100 100 ⟨0, 1, fun _ => []⟩).activeFileIdx = 0) ∧
    ((sessionPointerUp (0, 0) (10, 10) 100 100 ⟨0, 1, fun _ => []⟩).pageRects 1).length = 1 ∧
    ((setActiveFile 1 (sessionPointerUp (0, 0) (10, 10) 100 100
        ⟨0, 1, fun _ => []⟩)).activeFileIdx = 1) ∧
    ((sessionClear (setActiveFile 1 (sessionPointerUp (0, 0) (10, 10) 100 100
        ⟨0, 1, fun _ => []⟩))).pageRects 1).length = 0 := by
  refine ⟨rfl, ?_, rfl, ?_⟩ <;>
    norm_num [sessionPointerUp, sessionClear, setActiveFile, handlePointerUp,
      clearPageRects, normalizeRect]

/-- C9 amended: `clearPageRects` empties exactly the store entry of the given
page number and leaves every other page number's list unchanged; the store
has no document dimension, so rectangles committed under the same page number
while other documents were active are cleared with it. -/
theorem claim_C9_clear_active_page_only (pageRects : PageStore) (page : Nat) :
    clearPageRects page pageRects page = [] ∧
      ∀ p : Nat, p ≠ page → clearPageRects page pageRects p = pageRects p := by
  refine ⟨by simp [clearPageRects], fun p hp => ?_⟩
  simp [clearPageRects, hp]

/-- Witness for C9's amended statement at page 1 of a two-page store. -/
theorem claim_C9_witness :
    clearPageRects 1 (fun _ => [⟨⟨0, 0, 1, 1⟩, RectKind.redact, none⟩]) 1 = [] ∧
      clearPageRects 1 (fun _ => [⟨⟨0, 0, 1, 1⟩, RectKind.redact, none⟩]) 2 =
        [⟨⟨0, 0, 1, 1⟩, RectKind.redact, none⟩] :=
  ⟨(claim_C9_clear_active_page_only _ 1).1,
    (claim_C9_clear_active_page_only _ 1).2 2 (by decide)⟩

/-- Per-page geometry reported by the rasterization engine at scale 1:
native width/height in points and the page rotation, as read in
`buildPayloadAndLogos` via `page.getViewport({scale: 1.0})` and
`page.rotate`. -/
structure PageInfo where
  w : ℚ
  h : ℚ
  rot : Nat
deriving DecidableEq

/-- Dimensions of the engine's viewport at a given scale.  Modelled from the
external rasterizer's interface (spec section 6): a page of native size
`w × h` points rendered at `scale` produces a `scale·w × scale·h` pixel
surface (612 × 792 at scale 1.5 gives the spec's 918 × 1188 surface). -/
def viewportDims (info : PageInfo) (scale : ℚ) : ℚ × ℚ :=
  (scale * info.w, scale * info.h)

/-- One element of the `rectangles` array built by `buildPayloadAndLogos`
(PDFSanitizerApp1.jsx lines 365-397). -/
structure RectRecord where
  rect_idx : Nat
  page : Nat
  kind : RectKind
  bbox_norm : List ℚ
  bbox_pts : List ℚ
  page_w_pts : ℚ
  page_h_pts : ℚ
  rotation : Nat
deriving DecidableEq

/-- The record pushed for one stored rectangle on page `p` (1-based) with
running index `i`: document points come from `normRectToPdfPoints` against
the scale-1 page dimensions, rounded to two decimals by `fmt`. -/
def mkRecord (r : StoredRect) (info : PageInfo) (p i : Nat) : RectRecord :=
  let pts := normRectToPdfPoints r.nr info.w info.h
  { rect_idx := i, page := p - 1, kind := r.kind,
    bbox_norm := [r.nr.x1n, r.nr.y1n, r.nr.x2n, r.nr.y2n],
    bbox_pts := [fmt pts.x1, fmt pts.y1, fmt pts.x2, fmt pts.y2],
    page_w_pts := fmt info.w, page_h_pts := fmt info.h, rotation := info.rot }

/-- Inner loop of `buildPayloadAndLogos` over one page's rectangles: emit a
record for every rectangle and a `logoUploads` entry `(rect_idx, file)` for
those of kind `logo` that carry an uploaded file. -/
def buildRectRecords : List StoredRect → PageInfo → Nat → Nat →
    List RectRecord × List (Nat × Nat)
  | [], _, _, _ => ([], [])
  | r :: rest, info, p, i =>
    let tail := buildRectRecords rest info p (i + 1)
    let ups := match r.kind, r.logoFile with
      | RectKind.logo, some f => (i, f) :: tail.2
      | _, _ => tail.2
    (mkRecord r info p i :: tail.1, ups)

/-- Component state of `PDFSanitizerApp1.jsx` that the payload builder can
see: page count, per-page geometry and rectangles, and the current on-screen
zoom.  The zoom is part of the state precisely so that its irrelevance to the
payload can be stated. -/
structure App1State where
  numPages : Nat
  pageInfo : Nat → PageInfo
  pageRects : PageStore
  zoom : ℚ

/-- Outer loop of `buildPayloadAndLogos` over pages `p, p+1, ...` for
`remaining` more pages, threading the global `rect_idx` counter. -/
def buildPagesAux (st : App1State) : Nat → Nat → Nat →
    List RectRecord × List (Nat × Nat)
  | _, 0, _ => ([], [])
  | p, remaining + 1, i =>
    let here := buildRectRecords (st.pageRects p) (st.pageInfo p) p i
    let rest := buildPagesAux st (p + 1) remaining (i + (st.pageRects p).length)
    (here.1 ++ rest.1, here.2 ++ rest.2)

/-- Embedding of `buildPayloadAndLogos` (PDFSanitizerApp1.jsx lines 365-397):
walk pages 1..numPages, fetch each page's scale-1 viewport and rotation, and
emit the `rectangles` array plus the logo uploads keyed by `rect_idx`. -/
def buildPayloadAndLogos (st : App1State) : List RectRecord × List (Nat × Nat) :=
  buildPagesAux st 1 st.numPages 0

/-- The page loop of the payload builder reads only the page geometry and the
rectangle store, never the zoom field. -/
theorem buildPagesAux_zoom_invariant (numPages : Nat) (pageInfo : Nat → PageInfo)
    (pageRects : PageStore) (z z' : ℚ) :
    ∀ n p i, buildPagesAux ⟨numPages, pageInfo, pageRects, z⟩ p n i =
      buildPagesAux ⟨numPages, pageInfo, pageRects, z'⟩ p n i := by
  intro n
  induction n with
  | zero => intro p i; rfl
  | succ n ih =>
    intro p i
    simp only [buildPagesAux, ih]

/-- C4: the document-point bounding box emitted at submission time is
computed from the scale-1 page dimensions, so it does not depend on the
current on-screen zoom (first conjunct: the payload is invariant under any
change of the zoom field); and in the spec's scenario — native page
612 × 792 points shown at scale 1.5, i.e. on the 918 × 1188 surface, with a
committed rectangle covering the full surface — the emitted box is exactly
[0, 0, 612, 792] document points. -/
theorem claim_C4_unscaled_points :
    (∀ (st : App1State) (z : ℚ),
      buildPayloadAndLogos { st with zoom := z } = buildPayloadAndLogos st) ∧
    viewportDims ⟨612, 792, 0⟩ (3 / 2) = (918, 1188) ∧
    (buildPayloadAndLogos
        { numPages := 1,
          pageInfo := fun _ => ⟨612, 792, 0⟩,
          pageRects := fun p => if p = 1
            then [⟨normalizeRect ⟨0, 0, 918, 1188⟩ 918 1188, RectKind.redact, none⟩]
            else [],
          zoom := 3 / 2 }).1 =
      [{ rect_idx := 0, page := 0, kind := RectKind.redact,
         bbox_norm := [0, 0, 1, 1], bbox_pts := [0, 0, 612, 792],
         page_w_pts := 612, page_h_pts := 792, rotation := 0 }] := by
  refine ⟨fun st z => ?_, by norm_num [viewportDims], ?_⟩
  · cases st
    exact buildPagesAux_zoom_invariant _ _ _ _ _ _ _ _
  · norm_num [buildPayloadAndLogos, buildPagesAux, buildRectRecords, mkRecord,
      normalizeRect, normRectToPdfPoints, fmt, jsRound]

/-- One rectangle of `PDFSanitizerApp.jsx` (`NewClientSetupPage`): absolute
pixel coordinates rounded at confirm time, the source file index and page,
and the page-size metadata captured from the first render. -/
structure RectA where
  id : Nat
  x : ℤ
  y : ℤ
  w : ℤ
  h : ℤ
  fileIdx : Nat
  page : Nat
  paper : String
  orientation : String
deriving DecidableEq

/-- One `rectActions[id]` entry of `PDFSanitizerApp.jsx`: the chosen action,
the locally held upload (opaque identifier) and the backend storage key used
for the submission's `image_map`. -/
structure ActionEntry where
  action : RectKind
  logoFile : Option Nat
  logoKey : Option String
deriving DecidableEq

/-- One element of the `template_zones` array built by `runSanitization`
(PDFSanitizerApp.jsx lines 245-265). -/
structure Zone where
  page : Nat
  bbox : List ℤ
  paper : String
  orientation : String
  file_idx : Nat
deriving DecidableEq

/-- The zone pushed for one rectangle by `runSanitization`. -/
def toZone (r : RectA) : Zone :=
  { page := r.page, bbox := [r.x, r.y, r.x + r.w, r.y + r.h],
    paper := r.paper, orientation := r.orientation, file_idx := r.fileIdx }

/-- Embedding of the zone/image-map construction of `runSanitization`
(PDFSanitizerApp.jsx lines 245-265), with the running zone index made
explicit: every rectangle pushes its zone; a rectangle whose action is `logo`
adds `image_map[index] = logoKey` when a key is resolved and otherwise only
logs a warning (returned here as the list of warned indices). -/
def buildZones : List RectA → (Nat → Option ActionEntry) → Nat →
    List Zone × List (Nat × String) × List Nat
  | [], _, _ => ([], [], [])
  | r :: rest, acts, i =>
    let tail := buildZones rest acts (i + 1)
    match acts r.id with
    | some a =>
      if a.action = RectKind.logo then
        match a.logoKey with
        | some k => (toZone r :: tail.1, (i, k) :: tail.2.1, tail.2.2)
        | none => (toZone r :: tail.1, tail.2.1, i :: tail.2.2)
      else (toZone r :: tail.1, tail.2.1, tail.2.2)
    | none => (toZone r :: tail.1, tail.2.1, tail.2.2)

/-- Annotation state of `NewClientSetupPage`: the rectangle list, the
id-keyed action map, and the id supply (the JS ids from `Date.now()` plus a
random suffix are embedded as a counter, keeping only what matters: a fresh
id per confirm). -/
structure JsxState where
  rects : List RectA
  rectActions : Nat → Option ActionEntry
  nextId : Nat

/-- The confirmed draft data that `confirmDraft` reads from component state:
the draft box in pixels and the active file/page metadata. -/
structure Draft where
  x : ℚ
  y : ℚ
  w : ℚ
  h : ℚ
  fileIdx : Nat
  page : Nat
  paper : String
  orientation : String

/-- Embedding of `confirmDraft` (PDFSanitizerApp.jsx lines 208-229): append a
new rectangle with rounded pixel coordinates and register its action as
`redact`. -/
def confirmDraft (d : Draft) (s : JsxState) : JsxState :=
  { rects := s.rects ++
      [{ id := s.nextId, x := jsRound d.x, y := jsRound d.y,
         w := jsRound d.w, h := jsRound d.h, fileIdx := d.fileIdx,
         page := d.page, paper := d.paper, orientation := d.orientation }],
    rectActions := fun a => if a = s.nextId
      then some { action := RectKind.redact, logoFile := none, logoKey := none }
      else s.rectActions a,
    nextId := s.nextId + 1 }

/-- Embedding of `removeRect(id)` (PDFSanitizerApp.jsx lines 231-234). -/
def removeRectA (id : Nat) (s : JsxState) : JsxState :=
  { s with rects := s.rects.filter (fun r => r.id ≠ id),
           rectActions := fun a => if a = id then none else s.rectActions a }

/-- Embedding of the Action select's `onChange` (PDFSanitizerApp.jsx lines
394-400), the `setKind` operation: the new entry is the object
`{ action, logoFile }` — it keeps the previous upload only when the new
action is `logo` and never carries a `logoKey`. -/
def setAction (id : Nat) (k : RectKind) (s : JsxState) : JsxState :=
  { s with rectActions := fun a => if a = id
      then some { action := k,
                  logoFile := if k = RectKind.logo
                    then (s.rectActions id).bind (fun e => e.logoFile)
                    else none,
                  logoKey := none }
      else s.rectActions a }

/-- Embedding of the successful logo-upload `onChange` (PDFSanitizerApp.jsx
lines 415-436), the `attachAsset` operation: store the file and the backend
key under action `logo`. -/
def attachLogo (id : Nat) (f : Nat) (key : String) (s : JsxState) : JsxState :=
  { s with rectActions := fun a => if a = id
      then some { action := RectKind.logo, logoFile := some f, logoKey := some key }
      else s.rectActions a }

/-- The zones always come out as the map of `toZone` over the rectangle list
in order. -/
theorem buildZones_fst (l : List RectA) (acts : Nat → Option ActionEntry) :
    ∀ i, (buildZones l acts i).1 = l.map toZone := by
  induction l with
  | nil => intro i; rfl
  | cons r rest ih =>
    intro i
    simp only [buildZones, List.map_cons]
    rcases hacts : acts r.id with _ | a
    · simp [hacts, ih]
    · rcases ha : a.action with _ | _ <;>
        rcases hk : a.logoKey with _ | k <;>
        simp [hacts, ha, hk, ih]

/-- Membership in the emitted image map: an entry `(j, k)` always comes from
the rectangle at position `j - i` of the remaining list, whose registered
action is `logo` with resolved key `k`. -/
theorem buildZones_imageMap_mem (l : List RectA) (acts : Nat → Option ActionEntry) :
    ∀ i j k, (j, k) ∈ (buildZones l acts i).2.1 →
      ∃ m, ∃ hm : m < l.length, j = i + m ∧
        ∃ a, acts (l.get ⟨m, hm⟩).id = some a ∧
          a.action = RectKind.logo ∧ a.logoKey = some k := by
  induction l with
  | nil => intro i j k hmem; simp [buildZones] at hmem
  | cons r rest ih =>
    intro i j k hmem
    have step : ∀ hmem : (j, k) ∈ (buildZones rest acts (i + 1)).2.1,
        ∃ m, ∃ hm : m < (r :: rest).length, j = i + m ∧
          ∃ a, acts ((r :: rest).get ⟨m, hm⟩).id = some a ∧
            a.action = RectKind.logo ∧ a.logoKey = some k := by
      intro hmem
      obtain ⟨m, hm, hj, a, ha, hact, hkey⟩ := ih (i + 1) j k hmem
      exact ⟨m + 1, Nat.succ_lt_succ hm, by omega, a, ha, hact, hkey⟩
    rcases hacts : acts r.id with _ | a
    · simp only [buildZones, hacts] at hmem
      exact step hmem
    · rcases ha : a.action with _ | _
      · simp only [buildZones, hacts, ha] at hmem
        simp only [reduceCtorEq, if_false] at hmem
        exact step hmem
      · rcases hk : a.logoKey with _ | key
        · simp only [buildZones, hacts, ha, hk, if_true] at hmem
          exact step hmem
        · simp only [buildZones, hacts, ha, hk, if_true, List.mem_cons] at hmem
          rcases hmem with hhead | htail
          · refine ⟨0, Nat.succ_pos _, ?_, a, hacts, ha, ?_⟩
            · have := congrArg Prod.fst hhead
              simpa using this
            · have := congrArg Prod.snd hhead
              simp at this
              rw [hk, this]
          · exact step htail

/-- Membership in the warned-index list: index `j` is warned exactly when the
rectangle at position `j - i` has action `logo` with no resolved key. -/
theorem buildZones_warn_mem (l : List RectA) (acts : Nat → Option ActionEntry) :
    ∀ i m, ∀ hm : m < l.length,
      (∃ a, acts (l.get ⟨m, hm⟩).id = some a ∧
        a.action = RectKind.logo ∧ a.logoKey = none) →
      i + m ∈ (buildZones l acts i).2.2 := by
  induction l with
  | nil => intro i m hm; simp at hm
  | cons r rest ih =>
    intro i m hm ha
    match m with
    | 0 =>
      obtain ⟨a, hacts, hact, hkey⟩ := ha
      simp only [List.get] at hacts
      simp [buildZones, hacts, hact, hkey]
    | Nat.succ m' =>
      have hm' : m' < rest.length := Nat.lt_of_succ_lt_succ hm
      have tail := ih (i + 1) m' hm' ha
      have harith : i + (m' + 1) = (i + 1) + m' := by omega
      rw [harith]
      rcases hacts : acts r.id with _ | a
      · simpa [buildZones, hacts] using tail
      · rcases hact : a.action with _ | _
        · simpa [buildZones, hacts, hact] using tail
        · rcases hkey : a.logoKey with _ | key
          · simp [buildZones, hacts, hact, hkey]
            right
            exact tail
          · simpa [buildZones, hacts, hact, hkey] using tail

/-- C6: committing rectangles A then B appends them to the rectangle list in
that order, the submission's zone array is exactly the rectangle list mapped
to zones in insertion order (so A's zone precedes B's), and every key of the
emitted image map is the array index of the zone it refers to: the key's
rectangle is the one sitting at that index, and its registered action
resolved the mapped asset. -/
theorem claim_C6_insertion_order (s : JsxState) (dA dB : Draft) :
    (confirmDraft dB (confirmDraft dA s)).rects =
      s.rects ++
        [{ id := s.nextId, x := jsRound dA.x, y := jsRound dA.y,
           w := jsRound dA.w, h := jsRound dA.h, fileIdx := dA.fileIdx,
           page := dA.page, paper := dA.paper, orientation := dA.orientation },
         { id := s.nextId + 1, x := jsRound dB.x, y := jsRound dB.y,
           w := jsRound dB.w, h := jsRound dB.h, fileIdx := dB.fileIdx,
           page := dB.page, paper := dB.paper, orientation := dB.orientation }] ∧
    (buildZones (confirmDraft dB (confirmDraft dA s)).rects
        (confirmDraft dB (confirmDraft dA s)).rectActions 0).1 =
      ((confirmDraft dB (confirmDraft dA s)).rects).map toZone ∧
    ∀ j k, (j, k) ∈ (buildZones (confirmDraft dB (confirmDraft dA s)).rects
        (confirmDraft dB (confirmDraft dA s)).rectActions 0).2.1 →
      ∃ hj : j < (confirmDraft dB (confirmDraft dA s)).rects.length,
        ∃ a, (confirmDraft dB (confirmDraft dA s)).rectActions
            ((confirmDraft dB (confirmDraft dA s)).rects.get ⟨j, hj⟩).id = some a ∧
          a.action = RectKind.logo ∧ a.logoKey = some k := by
  refine ⟨?_, buildZones_fst _ _ 0, ?_⟩
  · simp [confirmDraft]
  · intro j k hmem
    obtain ⟨m, hm, hj0, a, ha, hact, hkey⟩ :=
      buildZones_imageMap_mem _ _ 0 j k hmem
    have hjm : j = m := by omega
    subst hjm
    exact ⟨hm, a, ha, hact, hkey⟩

/-- C7: a rectangle whose registered action is `logo` with no resolved asset
key still contributes its zone (the zone array is the full rectangle list in
order, of unchanged length, so the submission is neither blocked nor
truncated), no image-map entry is emitted for its index, and the omission is
surfaced as a warning for exactly that index. -/
theorem claim_C7_unresolved_logo_warned (rects : List RectA)
    (acts : Nat → Option ActionEntry) (m : Nat) (hm : m < rects.length)
    (a : ActionEntry) (hact : acts (rects.get ⟨m, hm⟩).id = some a)
    (hlogo : a.action = RectKind.logo) (hkey : a.logoKey = none) :
    (buildZones rects acts 0).1.length = rects.length ∧
    (buildZones rects acts 0).1 = rects.map toZone ∧
    (∀ k, (m, k) ∉ (buildZones rects acts 0).2.1) ∧
    m ∈ (buildZones rects acts 0).2.2 := by
  refine ⟨by rw [buildZones_fst _ _ 0, List.length_map], buildZones_fst _ _ 0,
    ?_, ?_⟩
  · intro k hmem
    obtain ⟨m', hm', hj0, a', ha', hact', hkey'⟩ :=
      buildZones_imageMap_mem _ _ 0 m k hmem
    have hmm : m' = m := by omega
    subst hmm
    rw [hact] at ha'
    have haa : a = a' := by injection ha'
    rw [← haa] at hkey'
    rw [hkey] at hkey'
    exact Option.noConfusion hkey'
  · simpa using buildZones_warn_mem rects acts 0 m hm ⟨a, hact, hlogo, hkey⟩

/-- A concrete rectangle used by the witness instantiations. -/
def rectFix : RectA :=
  { id := 7, x := 0, y := 0, w := 5, h := 5, fileIdx := 0,
    page := 0, paper := "A4", orientation := "H" }

/-- A concrete action map registering `rectFix` as a logo with no resolved
key. -/
def actsLogoNoKey : Nat → Option ActionEntry := fun a =>
  if a = 7
    then some { action := RectKind.logo, logoFile := none, logoKey := none }
    else none

/-- A concrete one-rectangle annotation state with no registered actions. -/
def jsxFix : JsxState :=
  { rects := [rectFix], rectActions := fun _ => none, nextId := 8 }

/-- Witness for C7: one rectangle whose action is `logo` with no key — its
zone is emitted and its index 0 is warned. -/
theorem claim_C7_witness :
    (buildZones [rectFix] actsLogoNoKey 0).1.length = 1 ∧
    0 ∈ (buildZones [rectFix] actsLogoNoKey 0).2.2 :=
  ⟨(claim_C7_unresolved_logo_warned [rectFix] actsLogoNoKey 0 (by decide)
      ⟨RectKind.logo, none, none⟩ rfl rfl rfl).1,
    (claim_C7_unresolved_logo_warned [rectFix] actsLogoNoKey 0 (by decide)
      ⟨RectKind.logo, none, none⟩ rfl rfl rfl).2.2.2⟩

/-- C8: switching a rectangle's kind away from `logo` after attaching an
asset clears the asset.  First conjunct: after `setKind(id, logo)`,
`attachAsset(id, X)`, `setKind(id, k)` with `k ≠ logo`, the registered entry
carries neither a file nor a key.  Second conjunct: a subsequent submission
build emits no image-map entry at that rectangle's zone index.  Third
conjunct: the same holds of the App1 variant — `updateRectKind` to a
non-logo kind erases the stored upload in place. -/
theorem claim_C8_kind_switch_clears_asset (s : JsxState) (id i : Nat)
    (hi : i < s.rects.length) (hid : (s.rects.get ⟨i, hi⟩).id = id)
    (f : Nat) (key : String) (k : RectKind) (hk : k ≠ RectKind.logo) :
    ((setAction id k (attachLogo id f key (setAction id RectKind.logo s))).rectActions id =
      some { action := k, logoFile := none, logoKey := none }) ∧
    (∀ v, (i, v) ∉ (buildZones
        (setAction id k (attachLogo id f key (setAction id RectKind.logo s))).rects
        (setAction id k (attachLogo id f key (setAction id RectKind.logo s))).rectActions
        0).2.1) ∧
    (∀ (pageRects : PageStore) (pg ix : Nat) (r : StoredRect),
      (pageRects pg).get? ix = some r →
      ((updateRectKind pg ix k pageRects) pg).get? ix =
        some { r with kind := k, logoFile := none }) := by
  have hval : (setAction id k (attachLogo id f key
      (setAction id RectKind.logo s))).rectActions id =
      some { action := k, logoFile := none, logoKey := none } := by
    simp [setAction, attachLogo, hk]
  refine ⟨hval, ?_, ?_⟩
  · intro v hmem
    obtain ⟨m, hm, hj0, a, ha, hact, hkey⟩ :=
      buildZones_imageMap_mem _ _ 0 i v hmem
    have hmi : m = i := by omega
    subst hmi
    have hgetid : ((setAction id k (attachLogo id f key
        (setAction id RectKind.logo s))).rects.get ⟨m, hm⟩).id = id := hid
    rw [hgetid, hval] at ha
    have haa : ({ action := k, logoFile := none, logoKey := none } : ActionEntry) = a := by
      injection ha
    rw [← haa] at hact
    exact hk hact
  · intro pageRects pg ix r hr
    have hpg : (updateRectKind pg ix k pageRects) pg =
        modifyAt (fun r =>
          { r with kind := k,
                   logoFile := if k = RectKind.logo then r.logoFile else none })
          ix (pageRects pg) := by
      simp [updateRectKind]
    rw [hpg, modifyAt_get?, hr]
    simp [hk]

/-- Witness for C8 on a one-rectangle state: after logo, attach, redact the
entry carries no asset and index 0 gets no image-map entry for the key. -/
theorem claim_C8_witness :
    ((setAction 7 RectKind.redact (attachLogo 7 3 "logos/x.png"
        (setAction 7 RectKind.logo jsxFix))).rectActions 7 =
      some { action := RectKind.redact, logoFile := none, logoKey := none }) ∧
    ((0, "logos/x.png") ∉ (buildZones
        (setAction 7 RectKind.redact (attachLogo 7 3 "logos/x.png"
          (setAction 7 RectKind.logo jsxFix))).rects
        (setAction 7 RectKind.redact (attachLogo 7 3 "logos/x.png"
          (setAction 7 RectKind.logo jsxFix))).rectActions
        0).2.1) :=
  ⟨(claim_C8_kind_switch_clears_asset jsxFix 7 0 (by decide) rfl 3 "logos/x.png"
      RectKind.redact (by decide)).1,
    (claim_C8_kind_switch_clears_asset jsxFix 7 0 (by decide) rfl 3 "logos/x.png"
      RectKind.redact (by decide)).2.1 "logos/x.png"⟩

/-- The split-trim-filter stage of `parseEraseCSV` (PDFSanitizerApp.jsx lines
48-49): trim the input, return nothing for an empty string, else split on
commas and newlines, trim every piece and drop the empty ones. -/
def eraseSplitTerms (input : String) : List String :=
  let s := input.trim
  if s = "" then []
  else ((s.split (fun c => c = ',' ∨ c = '\n')).map String.trim).filter
    (fun t => t ≠ "")

/-- The dedup loop of `parseEraseCSV`: keep a term when its lowercase form
was not seen before, accumulating seen lowercase keys. -/
def dedupeCI (seen : List String) : List String → List String
  | [] => []
  | t :: rest =>
    if t.toLower ∈ seen then dedupeCI seen rest
    else t :: dedupeCI (t.toLower :: seen) rest

/-- Embedding of `parseEraseCSV(input)` (PDFSanitizerApp.jsx lines 48-49). -/
def parseEraseCSV (input : String) : List String :=
  dedupeCI [] (eraseSplitTerms input)

/-- The dedup loop returns a sublist of its input. -/
theorem dedupeCI_sublist : ∀ (l seen : List String), (dedupeCI seen l).Sublist l := by
  intro l
  induction l with
  | nil => intro seen; exact List.Sublist.refl []
  | cons t rest ih =>
    intro seen
    by_cases h : t.toLower ∈ seen
    · simpa [dedupeCI, h] using (ih seen).cons t
    · simpa [dedupeCI, h] using (ih (t.toLower :: seen)).cons₂ t

/-- No kept term has its lowercase form in the seen accumulator. -/
theorem dedupeCI_not_seen : ∀ (l seen : List String) (u : String),
    u ∈ dedupeCI seen l → u.toLower ∉ seen := by
  intro l
  induction l with
  | nil => intro seen u hu; simp [dedupeCI] at hu
  | cons t rest ih =>
    intro seen u hu
    by_cases h : t.toLower ∈ seen
    · rw [dedupeCI, if_pos h] at hu
      exact ih seen u hu
    · rw [dedupeCI, if_neg h] at hu
      rcases List.mem_cons.mp hu with rfl | hu'
      · exact h
      · intro hseen
        exact ih _ u hu' (List.mem_cons_of_mem _ hseen)

/-- The kept terms are pairwise distinct case-insensitively. -/
theorem dedupeCI_pairwise : ∀ (l seen : List String),
    (dedupeCI seen l).Pairwise (fun a b => a.toLower ≠ b.toLower) := by
  intro l
  induction l with
  | nil => intro seen; exact List.Pairwise.nil
  | cons t rest ih =>
    intro seen
    by_cases h : t.toLower ∈ seen
    · rw [dedupeCI, if_pos h]
      exact ih seen
    · rw [dedupeCI, if_neg h]
      refine List.pairwise_cons.mpr ⟨fun b hb => ?_, ih _⟩
      have := dedupeCI_not_seen rest _ b hb
      intro heq
      exact this (heq ▸ List.mem_cons_self _ _)

/-- Every input term is represented: its lowercase form was already seen, or
some kept term shares it. -/
theorem dedupeCI_covers : ∀ (l seen : List String) (t : String), t ∈ l →
    t.toLower ∈ seen ∨ ∃ u, u ∈ dedupeCI seen l ∧ u.toLower = t.toLower := by
  intro l
  induction l with
  | nil => intro seen t ht; simp at ht
  | cons t0 rest ih =>
    intro seen t ht
    by_cases h : t0.toLower ∈ seen
    · rw [dedupeCI, if_pos h]
      rcases List.mem_cons.mp ht with rfl | ht'
      · exact Or.inl h
      · exact ih seen t ht'
    · rw [dedupeCI, if_neg h]
      rcases List.mem_cons.mp ht with rfl | ht'
      · exact Or.inr ⟨t, List.mem_cons_self _ _, rfl⟩
      · rcases ih (t0.toLower :: seen) t ht' with hseen | ⟨u, hu, hlow⟩
        · rcases List.mem_cons.mp hseen with heq | hseen'
          · exact Or.inr ⟨t0, List.mem_cons_self _ _, heq.symm⟩
          · exact Or.inl hseen'
        · exact Or.inr ⟨u, List.mem_cons_of_mem _ hu, hlow⟩

/-- Every kept term is the first input term with its lowercase form. -/
theorem dedupeCI_first_occurrence : ∀ (l seen : List String) (u : String),
    u ∈ dedupeCI seen l →
    l.find? (fun t => t.toLower == u.toLower) = some u := by
  intro l
  induction l with
  | nil => intro seen u hu; simp [dedupeCI] at hu
  | cons t0 rest ih =>
    intro seen u hu
    by_cases h : t0.toLower ∈ seen
    · rw [dedupeCI, if_pos h] at hu
      have hne : (t0.toLower == u.toLower) = false := by
        refine beq_eq_false_iff_ne.mpr ?_
        intro heq
        exact dedupeCI_not_seen rest seen u hu (heq ▸ h)
      rw [List.find?_cons_of_neg _ (by simp [hne]), ih seen u hu]
    · rw [dedupeCI, if_neg h] at hu
      rcases List.mem_cons.mp hu with rfl | hu'
      · exact List.find?_cons_of_pos _ (beq_self_eq_true _)
      · have hne : (t0.toLower == u.toLower) = false := by
          refine beq_eq_false_iff_ne.mpr ?_
          intro heq
          exact dedupeCI_not_seen rest _ u hu' (heq ▸ List.mem_cons_self _ _)
        rw [List.find?_cons_of_neg _ (by simp [hne]), ih _ u hu']

/-- C10: `parseEraseCSV` returns a sublist of the split-trimmed-filtered
terms (so first-occurrence order and original casing are preserved and no
empty entry survives), no two returned terms are equal case-insensitively,
every input term has a case-insensitive representative in the output, and
each returned term is exactly the first input term with its lowercase
form. -/
theorem claim_C10_parseEraseCSV (input : String) :
    (parseEraseCSV input).Sublist (eraseSplitTerms input) ∧
    (parseEraseCSV input).Pairwise (fun a b => a.toLower ≠ b.toLower) ∧
    (∀ t, t ∈ eraseSplitTerms input →
      ∃ u, u ∈ parseEraseCSV input ∧ u.toLower = t.toLower) ∧
    (∀ u, u ∈ parseEraseCSV input →
      (eraseSplitTerms input).find? (fun t => t.toLower == u.toLower) = some u) ∧
    (∀ u, u ∈ parseEraseCSV input → u ≠ "") := by
  refine ⟨dedupeCI_sublist _ [], dedupeCI_pairwise _ [], ?_, ?_, ?_⟩
  · intro t ht
    rcases dedupeCI_covers (eraseSplitTerms input) [] t ht with hseen | hu
    · simp at hseen
    · exact hu
  · intro u hu
    exact dedupeCI_first_occurrence _ [] u hu
  · intro u hu
    have hmem : u ∈ eraseSplitTerms input :=
      (dedupeCI_sublist _ []).mem hu
    unfold eraseSplitTerms at hmem
    by_cases hempty : input.trim = ""
    · rw [if_pos hempty] at hmem
      simp at hmem
    · rw [if_neg hempty] at hmem
      have := (List.mem_filter.mp hmem).2
      simpa using this

/-- Witness for C10 on the self-test input "foo, Bar\nbaz, FOO": the parsed
list is a sublist of the split terms, so order and casing are preserved. -/
theorem claim_C10_witness :
    (parseEraseCSV "foo, Bar\nbaz, FOO").Sublist
      (eraseSplitTerms "foo, Bar\nbaz, FOO") :=
  (claim_C10_parseEraseCSV "foo, Bar\nbaz, FOO").1

/-- Parameters of one render request: the (document, page, scale) triple the
render effect of `PDFSanitizerApp1.jsx` (lines 197-236) closes over, also
the arguments of `renderPage` in `PDFSanitizerApp0.jsx` (lines 62-97). -/
structure RenderParams where
  doc : Nat
  page : Nat
  scale : ℚ
deriving DecidableEq

/-- Event-level state of the render pipeline.  `reg` is `renderTaskRef`
(the token of the registered task, if any); `started` records every task
the engine was asked to run, with its parameters; `cancelled` the tokens on
which `task.cancel()` was called; `surface` the parameters of the last
completion whose continuation ran (the render made visible); `applied` the
tokens of all completions that mutated the surface, in order. -/
structure RenderState where
  reg : Option Nat
  started : List (Nat × RenderParams)
  cancelled : List Nat
  nextToken : Nat
  surface : Option RenderParams
  applied : List Nat
deriving DecidableEq

/-- Look up a started task's parameters by token. -/
def findTask (t : Nat) : List (Nat × RenderParams) → Option RenderParams
  | [] => none
  | (t0, p) :: rest => if t0 = t then some p else findTask t rest

/-- The atomic events of the render effect, separated at its `await` points:
`beginReq` is the synchronous prologue of one effect run — `if
(renderTaskRef.current) { renderTaskRef.current.cancel(); renderTaskRef.current
= null; }` — which runs before `await pdfDoc.getPage(...)`; `startTask p` is
the later step `const task = page.render(...); renderTaskRef.current = task`
of the same run, reached only after the `getPage` promise resolves; and
`complete t` is the resolution of task `t`'s promise.  A cancelled task's
promise rejects with `RenderingCancelledException`, which the `catch` clause
swallows, so only completions of never-cancelled tasks mutate the surface. -/
inductive RenderEv where
  | beginReq
  | startTask (p : RenderParams)
  | complete (t : Nat)
deriving DecidableEq

/-- One event step of the render pipeline. -/
def rstep (s : RenderState) : RenderEv → RenderState
  | RenderEv.beginReq =>
    match s.reg with
    | some t => { s with reg := none, cancelled := t :: s.cancelled }
    | none => s
  | RenderEv.startTask p =>
    { s with reg := some s.nextToken,
             started := (s.nextToken, p) :: s.started,
             nextToken := s.nextToken + 1 }
  | RenderEv.complete t =>
    if t ∈ s.cancelled then s
    else
      match findTask t s.started with
      | some p => { s with surface := some p, applied := s.applied ++ [t] }
      | none => s

/-- The initial pipeline state: no task registered, nothing rendered. -/
def rinit : RenderState :=
  { reg := none, started := [], cancelled := [], nextToken := 0,
    surface := none, applied := [] }

/-- Run a trace of render events from the initial state. -/
def rrun (evs : List RenderEv) : RenderState :=
  evs.foldl rstep rinit

/-- When one request's cancel-and-register steps run back to back — the
second request begins only after the first task is registered — the model
recovers the intended behaviour: the superseded task's late completion is
ignored and the surface shows the second request's parameters. -/
theorem rrun_serialized_second_request_wins (p1 p2 : RenderParams) :
    (rrun [RenderEv.beginReq, RenderEv.startTask p1, RenderEv.beginReq,
        RenderEv.startTask p2, RenderEv.complete 0, RenderEv.complete 1]).surface =
      some p2 ∧
    (rrun [RenderEv.beginReq, RenderEv.startTask p1, RenderEv.beginReq,
        RenderEv.startTask p2, RenderEv.complete 0, RenderEv.complete 1]).applied =
      [1] := by
  constructor <;> rfl

/-- C1 fails on the code: both render effects register their task only after
an `await` (`pdfDoc.getPage` in PDFSanitizerApp1.jsx line 208, with the
cancel step at lines 202-205 before it), so when a second request begins
while the first is still awaiting `getPage`, its cancel step finds
`renderTaskRef.current === null` and cancels nothing.  Both tasks then start
and neither is ever cancelled.  In the trace below the second request's
render (token 1) completes first and the superseded first render (token 0)
completes last: both completions mutate the surface, and the displayed
surface ends at the first request's parameters `p1` instead of the claimed
`p2` — the stale page the spec's token comparison was meant to prevent. -/
theorem claim_C1_stale_render_displayed :
    ((rrun [RenderEv.beginReq, RenderEv.beginReq,
        RenderEv.startTask { doc := 0, page := 1, scale := 1 },
        RenderEv.startTask { doc := 0, page := 1, scale := 3 / 2 },
        RenderEv.complete 1, RenderEv.complete 0]).surface =
      some { doc := 0, page := 1, scale := 1 }) ∧
    ((rrun [RenderEv.beginReq, RenderEv.beginReq,
        RenderEv.startTask { doc := 0, page := 1, scale := 1 },
        RenderEv.startTask { doc := 0, page := 1, scale := 3 / 2 },
        RenderEv.complete 1, RenderEv.complete 0]).applied = [1, 0]) ∧
    ({ doc := 0, page := 1, scale := 1 } : RenderParams) ≠
      { doc := 0, page := 1, scale := 3 / 2 } := by
  refine ⟨by decide, by decide, ?_⟩
  simp only [ne_eq, RenderParams.mk.injEq, not_and]
  intro _ _
  norm_num

end PdfSan
